import Mathlib

/-
Verification of the transfer core of dorks_bank (src/server.js).

The embedding translates the POST /transfer handler (server.js lines
411-507) into a pure Lean function over an explicit bank state.  Balances
and amounts are rationals, since the JavaScript code converts the raw form
field with Number() and performs no integrality check; the accounts table
is an association list keyed by username (the database enforces a unique
constraint on usernames, surfaced as error 23505 in the signup handler).
The two SELECT ... FOR UPDATE statements are recorded, in execution order,
in the locks field of the result, so that lock-acquisition order is
observable in the model.
-/

namespace DorksBank

/-- Result of the JavaScript Number() conversion: either NaN (or a
non-finite value), or a finite numeric value, modelled as a rational. -/
inductive NumV where
  | nan : NumV
  | val (q : ℚ) : NumV
deriving DecidableEq, Repr

/-- Value of a run of decimal digits, None if a non-digit occurs.
Accumulates left to right, so digitsValAux 0 of the digit list of a
numeral is its value. -/
def digitsValAux : Nat → List Char → Option Nat
  | acc, [] => some acc
  | acc, c :: t =>
    if c.isDigit then digitsValAux (10 * acc + (c.toNat - 48)) t else none

/-- Split a character list at the first dot, returning the part before it
and, when a dot occurs, the part after it. -/
def splitDot : List Char → List Char × Option (List Char)
  | [] => ([], none)
  | c :: t =>
    if c = '.' then ([], some t)
    else
      let r := splitDot t
      (c :: r.1, r.2)

/-- Strip an optional leading sign, returning whether the value is negated
and the remaining characters. -/
def stripSign : List Char → Bool × List Char
  | '-' :: t => (true, t)
  | '+' :: t => (false, t)
  | cs => (false, cs)

/-- Models the JavaScript Number() conversion on a string, restricted to
optionally signed decimal numerals: the empty string converts to 0, a
numeral with an optional fractional part converts to its value, and
anything else (in particular any string with a non-digit other than one
leading sign and one dot) converts to NaN.  Exponent, hexadecimal and
whitespace forms of Number() are outside the inputs considered here. -/
def parseNum (s : String) : NumV :=
  if s.toList = [] then NumV.val 0
  else
    let sg := stripSign s.toList
    let sp := splitDot sg.2
    match sp.2 with
    | none =>
      match digitsValAux 0 sp.1 with
      | some n =>
        if sp.1 = [] then NumV.nan
        else NumV.val (if sg.1 then -(n : ℚ) else (n : ℚ))
      | none => NumV.nan
    | some fp =>
      match digitsValAux 0 sp.1, digitsValAux 0 fp with
      | some n, some m =>
        if sp.1 = [] ∧ fp = [] then NumV.nan
        else
          let q : ℚ := (n : ℚ) + (m : ℚ) / ((10 : ℚ) ^ fp.length)
          NumV.val (if sg.1 then -q else q)
      | _, _ => NumV.nan

/-- Number() applied to a request-body field: an absent field is
undefined, and Number(undefined) is NaN. -/
def jsNumber : Option String → NumV
  | none => NumV.nan
  | some s => parseNum s

/-- The urlencoded request body: a list of field-name and value pairs. -/
def Body := List (String × String)

/-- First value bound to a field name in the request body, if any. -/
def bodyGet : List (String × String) → String → Option String
  | [], _ => none
  | p :: t, k => if p.1 = k then some p.2 else bodyGet t k

/-- A row of the transactions table as inserted by the transfer handler:
INSERT INTO transactions (from_user, to_user, amount). -/
structure Txn where
  from_user : String
  to_user : String
  amount : ℚ
deriving DecidableEq, Repr

/-- The persistent state the transfer handler touches: the users table
(username and balance rows) and the transactions table. -/
structure Bank where
  accounts : List (String × ℚ)
  txns : List Txn
deriving DecidableEq, Repr

/-- Balance of the first row whose username matches, as SELECT balance
FROM users WHERE username = u returns it. -/
def lookupBal : List (String × ℚ) → String → Option ℚ
  | [], _ => none
  | p :: t, u => if p.1 = u then some p.2 else lookupBal t u

/-- UPDATE users SET balance = balance + d WHERE username = u: every row
whose username matches has its balance shifted by d. -/
def addBal (accs : List (String × ℚ)) (u : String) (d : ℚ) :
    List (String × ℚ) :=
  accs.map (fun p => if p.1 = u then (p.1, p.2 + d) else p)

/-- Sum of all balances in the accounts table. -/
def totalBal (accs : List (String × ℚ)) : ℚ :=
  (accs.map Prod.snd).sum

/-- The usernames of the accounts table, in row order. -/
def keysOf (accs : List (String × ℚ)) : List String :=
  accs.map Prod.fst

/-- Every balance in the table is non-negative. -/
def allNonneg (accs : List (String × ℚ)) : Prop :=
  ∀ p ∈ accs, 0 ≤ p.2

/-- The HTTP response the handler produces: res.send of an HTML snippet,
or res.redirect of a URL. -/
inductive Resp where
  | send (msg : String)
  | redirect (url : String)
deriving DecidableEq, Repr

/-- Outcome of one POST /transfer request: the response, the bank state
after the handler returns, and the usernames locked by the two
SELECT ... FOR UPDATE queries, in execution order. -/
structure TransferOut where
  resp : Resp
  bank : Bank
  locks : List String
deriving DecidableEq, Repr

def invalidMsg : String :=
  "Invalid transfer. <a href=\x27/dashboard\x27>Back</a>"

def selfMsg : String :=
  "You can\x27t send money to yourself. <a href=\x27/dashboard\x27>Back</a>"

def senderMsg : String :=
  "Sender not found. <a href=\x27/dashboard\x27>Back</a>"

def receiverMsg : String :=
  "Receiver does not exist. <a href=\x27/dashboard\x27>Back</a>"

def insufficientUrl : String := "/dashboard?error=insufficient"

def sentUrl : String := "/dashboard?sent=1"

/-- The validation test on the converted amount, from the guard
!Number.isFinite(amountNumber) || amountNumber <= 0. -/
def amountInvalid : NumV → Bool
  | NumV.nan => true
  | NumV.val q => decide (q ≤ 0)

/-- The POST /transfer handler, server.js lines 411-507.  sessUser and
sessRole are req.session.username and req.session.role; body is req.body.
The handler reads toUser and amount from the body (an absent toUser is
falsy, like the empty string), validates, locks and reads the sender row
then the receiver row, applies the insufficient-funds check unless the
session role is admin, debits the sender unless the session role is
admin, credits the receiver, appends one transactions row and commits;
every failure path leaves the bank unchanged (thrown errors run ROLLBACK,
and the two early returns happen before any UPDATE). -/
def transfer (bank : Bank) (sessUser sessRole : String)
    (body : List (String × String)) : TransferOut :=
  let fromUser := sessUser
  let fromRole := sessRole
  let toUser := (bodyGet body "toUser").getD ""
  let amountNumber := jsNumber (bodyGet body "amount")
  if toUser = "" ∨ amountInvalid amountNumber = true then
    ⟨Resp.send invalidMsg, bank, []⟩
  else
    match amountNumber with
    | NumV.nan => ⟨Resp.send invalidMsg, bank, []⟩
    | NumV.val amt =>
      if toUser = fromUser then
        ⟨Resp.send selfMsg, bank, []⟩
      else
        match lookupBal bank.accounts fromUser with
        | none => ⟨Resp.send senderMsg, bank, [fromUser]⟩
        | some senderBalance =>
          match lookupBal bank.accounts toUser with
          | none => ⟨Resp.send receiverMsg, bank, [fromUser, toUser]⟩
          | some _ =>
            if fromRole ≠ "admin" ∧ senderBalance < amt then
              ⟨Resp.redirect insufficientUrl, bank, [fromUser, toUser]⟩
            else
              let accs1 :=
                if fromRole ≠ "admin" then
                  addBal bank.accounts fromUser (-amt)
                else bank.accounts
              let accs2 := addBal accs1 toUser amt
              ⟨Resp.redirect sentUrl,
               ⟨accs2, bank.txns ++ [⟨fromUser, toUser, amt⟩]⟩,
               [fromUser, toUser]⟩

/-- One authenticated transfer request: the session identity and role the
handler trusts, and the request body. -/
structure Request where
  sessUser : String
  sessRole : String
  body : List (String × String)

/-- Apply a sequence of transfer requests to a bank state, keeping the
resulting state of each (failed requests leave the state unchanged). -/
def runTransfers : Bank → List Request → Bank
  | bank, [] => bank
  | bank, r :: t => runTransfers (transfer bank r.sessUser r.sessRole r.body).bank t

/-- Shifting one username's balance does not change the list of usernames. -/
theorem keysOf_addBal (accs : List (String × ℚ)) (u : String) (d : ℚ) :
    keysOf (addBal accs u d) = keysOf accs := by
  induction accs with
  | nil => rfl
  | cons p t ih =>
    simp only [addBal, keysOf, List.map_cons] at ih ⊢
    by_cases h : p.1 = u
    · simp [h, ih]
    · simp [h, ih]

/-- Looking up the shifted username sees the shifted balance. -/
theorem lookupBal_addBal_self (accs : List (String × ℚ)) (u : String) (d : ℚ) :
    lookupBal (addBal accs u d) u = (lookupBal accs u).map (fun v => v + d) := by
  induction accs with
  | nil => rfl
  | cons p t ih =>
    simp only [addBal, lookupBal, List.map_cons] at ih ⊢
    by_cases h : p.1 = u
    · simp [h]
    · simp [h, ih]

/-- Looking up any other username is unaffected by the shift. -/
theorem lookupBal_addBal_ne (accs : List (String × ℚ)) (u w : String) (d : ℚ)
    (h : w ≠ u) :
    lookupBal (addBal accs u d) w = lookupBal accs w := by
  induction accs with
  | nil => rfl
  | cons p t ih =>
    simp only [addBal, lookupBal, List.map_cons] at ih ⊢
    by_cases hp : p.1 = u
    · simp [hp, Ne.symm h, ih]
    · by_cases hw : p.1 = w
      · simp [hp, hw, h]
      · simp [hp, hw, ih]

/-- Shifting a username that has no row is a no-op. -/
theorem addBal_of_not_mem (accs : List (String × ℚ)) (u : String) (d : ℚ)
    (h : u ∉ keysOf accs) : addBal accs u d = accs := by
  induction accs with
  | nil => rfl
  | cons p t ih =>
    simp only [keysOf, List.map_cons, List.mem_cons, not_or] at h
    simp only [addBal, List.map_cons]
    have hp : ¬ p.1 = u := fun he => h.1 he.symm
    have ht : addBal t u d = t := ih (by simpa [keysOf] using h.2)
    simpa [hp] using congrArg (fun l => p :: l) ht

/-- A username has a row exactly when its lookup succeeds. -/
theorem lookupBal_isSome_iff (accs : List (String × ℚ)) (u : String) :
    (lookupBal accs u).isSome = true ↔ u ∈ keysOf accs := by
  induction accs with
  | nil => simp [lookupBal, keysOf]
  | cons p t ih =>
    rw [lookupBal, keysOf, List.map_cons, List.mem_cons]
    by_cases h : p.1 = u
    · simp [h]
    · rw [if_neg h, keysOf] at *
      constructor
      · intro hs
        exact Or.inr (ih.1 hs)
      · intro hm
        rcases hm with he | hm
        · exact absurd he.symm h
        · exact ih.2 hm

/-- A successful lookup exhibits a row of the table. -/
theorem lookupBal_mem (accs : List (String × ℚ)) (u : String) (v : ℚ)
    (h : lookupBal accs u = some v) : (u, v) ∈ accs := by
  induction accs with
  | nil => simp [lookupBal] at h
  | cons p t ih =>
    rw [lookupBal] at h
    by_cases hp : p.1 = u
    · rw [if_pos hp] at h
      obtain ⟨a, b⟩ := p
      have hb : b = v := Option.some.inj h
      subst hb
      subst hp
      exact List.mem_cons_self _ _
    · rw [if_neg hp] at h
      exact List.mem_cons_of_mem _ (ih h)

/-- With unique usernames, every row keyed by the looked-up name carries
the looked-up balance. -/
theorem lookupBal_unique (accs : List (String × ℚ)) (u : String) (v : ℚ)
    (nd : (keysOf accs).Nodup) (h : lookupBal accs u = some v) :
    ∀ p ∈ accs, p.1 = u → p.2 = v := by
  induction accs with
  | nil => simp
  | cons q t ih =>
    rw [keysOf, List.map_cons, List.nodup_cons] at nd
    intro p hp hpu
    rw [lookupBal] at h
    by_cases hq : q.1 = u
    · rw [if_pos hq] at h
      rcases List.mem_cons.1 hp with rfl | hpt
      · exact Option.some.inj h
      · exfalso
        apply nd.1
        rw [hq, ← hpu]
        exact List.mem_map.2 ⟨p, hpt, rfl⟩
    · rw [if_neg hq] at h
      rcases List.mem_cons.1 hp with rfl | hpt
      · exact absurd hpu hq
      · exact ih nd.2 h p hpt hpu

/-- With unique usernames, shifting a present row by d changes the total
of all balances by exactly d. -/
theorem totalBal_addBal (accs : List (String × ℚ)) (u : String) (d : ℚ)
    (nd : (keysOf accs).Nodup) (hmem : u ∈ keysOf accs) :
    totalBal (addBal accs u d) = totalBal accs + d := by
  induction accs with
  | nil => simp [keysOf] at hmem
  | cons p t ih =>
    rw [keysOf, List.map_cons, List.nodup_cons] at nd
    by_cases h : p.1 = u
    · have ht : addBal t u d = t := addBal_of_not_mem t u d (by rw [keysOf]; exact h ▸ nd.1)
      have step : addBal (p :: t) u d = (p.1, p.2 + d) :: addBal t u d := by
        show (if p.1 = u then (p.1, p.2 + d) else p) :: addBal t u d = _
        rw [if_pos h]
      rw [step, ht]
      simp only [totalBal, List.map_cons, List.sum_cons]
      ring
    · have hmem' : u ∈ keysOf t := by
        rw [keysOf, List.map_cons, List.mem_cons] at hmem
        rcases hmem with he | ht2
        · exact absurd he.symm h
        · rw [keysOf]
          exact ht2
      have step : addBal (p :: t) u d = p :: addBal t u d := by
        show (if p.1 = u then (p.1, p.2 + d) else p) :: addBal t u d = _
        rw [if_neg h]
      rw [step]
      have hrec := ih nd.2 hmem'
      simp only [totalBal, List.map_cons, List.sum_cons] at hrec ⊢
      rw [hrec]
      ring

/-- Every branch of the handler either leaves the bank unchanged or
responds with the success redirect: the only path that mutates the
accounts or the transactions table is the one that commits. -/
theorem transfer_bank_or_success (bank : Bank) (sU sR : String)
    (body : List (String × String)) :
    (transfer bank sU sR body).bank = bank ∨
    (transfer bank sU sR body).resp = Resp.redirect sentUrl := by
  unfold transfer
  dsimp only
  split
  · exact Or.inl rfl
  · split
    · exact Or.inl rfl
    · split
      · exact Or.inl rfl
      · split
        · exact Or.inl rfl
        · split
          · exact Or.inl rfl
          · split
            · exact Or.inl rfl
            · exact Or.inr rfl

/-- The handler preserves the set of account rows: no branch inserts or
deletes a users row, so the username column is unchanged. -/
theorem transfer_keysOf (bank : Bank) (sU sR : String)
    (body : List (String × String)) :
    keysOf (transfer bank sU sR body).bank.accounts = keysOf bank.accounts := by
  unfold transfer
  dsimp only
  split
  · rfl
  · split
    · rfl
    · split
      · rfl
      · split
        · rfl
        · split
          · rfl
          · split
            · rfl
            · split
              · rw [keysOf_addBal, keysOf_addBal]
              · rw [keysOf_addBal]

/-- When validation passes, both accounts exist and the funds check does
not fire, the handler commits: it debits the sender unless the session
role is admin, credits the receiver, appends one transactions row, and
redirects to the sent page, having locked sender then receiver. -/
theorem transfer_success_eq (bank : Bank) (sU sR : String)
    (body : List (String × String)) (tgt : String) (q b c : ℚ)
    (hto : bodyGet body "toUser" = some tgt)
    (htne : tgt ≠ "")
    (hamt : jsNumber (bodyGet body "amount") = NumV.val q)
    (hq : 0 < q)
    (hself : tgt ≠ sU)
    (hs : lookupBal bank.accounts sU = some b)
    (hr : lookupBal bank.accounts tgt = some c)
    (hfunds : sR = "admin" ∨ q ≤ b) :
    transfer bank sU sR body =
      ⟨Resp.redirect sentUrl,
       ⟨addBal (if sR ≠ "admin" then addBal bank.accounts sU (-q) else bank.accounts) tgt q,
        bank.txns ++ [⟨sU, tgt, q⟩]⟩,
       [sU, tgt]⟩ := by
  unfold transfer
  rw [hto, hamt]
  dsimp only [Option.getD_some]
  rw [if_neg (by simp [htne, amountInvalid, not_le.2 hq])]
  rw [if_neg hself]
  rw [hs, hr]
  dsimp only
  rw [if_neg (by rcases hfunds with h | h <;> simp [h, not_lt])]

/-- When validation passes, both accounts exist, the session role is not
admin and the sender balance is below the amount, the handler redirects
to the insufficient-funds page without touching the bank. -/
theorem transfer_insufficient_eq (bank : Bank) (sU sR : String)
    (body : List (String × String)) (tgt : String) (q b c : ℚ)
    (hto : bodyGet body "toUser" = some tgt)
    (htne : tgt ≠ "")
    (hamt : jsNumber (bodyGet body "amount") = NumV.val q)
    (hq : 0 < q)
    (hself : tgt ≠ sU)
    (hs : lookupBal bank.accounts sU = some b)
    (hr : lookupBal bank.accounts tgt = some c)
    (hrole : sR ≠ "admin") (hlt : b < q) :
    transfer bank sU sR body = ⟨Resp.redirect insufficientUrl, bank, [sU, tgt]⟩ := by
  unfold transfer
  rw [hto, hamt]
  dsimp only [Option.getD_some]
  rw [if_neg (by simp [htne, amountInvalid, not_le.2 hq])]
  rw [if_neg hself]
  rw [hs, hr]
  dsimp only
  rw [if_pos ⟨hrole, hlt⟩]

/-- When validation passes and the sender account is absent, the handler
throws at the first existence check, after locking only the sender name,
and the caught error reports the sender. -/
theorem transfer_sender_missing_eq (bank : Bank) (sU sR : String)
    (body : List (String × String)) (tgt : String) (q : ℚ)
    (hto : bodyGet body "toUser" = some tgt)
    (htne : tgt ≠ "")
    (hamt : jsNumber (bodyGet body "amount") = NumV.val q)
    (hq : 0 < q)
    (hself : tgt ≠ sU)
    (hs : lookupBal bank.accounts sU = none) :
    transfer bank sU sR body = ⟨Resp.send senderMsg, bank, [sU]⟩ := by
  unfold transfer
  rw [hto, hamt]
  dsimp only [Option.getD_some]
  rw [if_neg (by simp [htne, amountInvalid, not_le.2 hq])]
  rw [if_neg hself]
  rw [hs]

/-- When validation passes, the sender account exists and the receiver
account is absent, the handler throws at the second existence check and
the caught error reports the receiver. -/
theorem transfer_receiver_missing_eq (bank : Bank) (sU sR : String)
    (body : List (String × String)) (tgt : String) (q b : ℚ)
    (hto : bodyGet body "toUser" = some tgt)
    (htne : tgt ≠ "")
    (hamt : jsNumber (bodyGet body "amount") = NumV.val q)
    (hq : 0 < q)
    (hself : tgt ≠ sU)
    (hs : lookupBal bank.accounts sU = some b)
    (hr : lookupBal bank.accounts tgt = none) :
    transfer bank sU sR body = ⟨Resp.send receiverMsg, bank, [sU, tgt]⟩ := by
  unfold transfer
  rw [hto, hamt]
  dsimp only [Option.getD_some]
  rw [if_neg (by simp [htne, amountInvalid, not_le.2 hq])]
  rw [if_neg hself]
  rw [hs, hr]

/-- With unique usernames, shifting a row whose balance v satisfies
0 ≤ v + d keeps all balances non-negative. -/
theorem allNonneg_addBal (accs : List (String × ℚ)) (u : String) (v d : ℚ)
    (nd : (keysOf accs).Nodup) (hl : lookupBal accs u = some v)
    (hd : 0 ≤ v + d) (hn : allNonneg accs) : allNonneg (addBal accs u d) := by
  intro p' hp'
  rcases List.mem_map.1 hp' with ⟨p, hp, he⟩
  by_cases h : p.1 = u
  · have hv : p.2 = v := lookupBal_unique accs u v nd hl p hp h
    rw [← he]
    simpa [h, hv] using hd
  · rw [← he]
    simpa [h] using hn p hp

/-- A transfer whose session role is not admin never changes the sum of
all balances: every failure branch leaves the bank unchanged, and the
committed branch debits and credits the same amount. -/
theorem transfer_total_nonadmin (bank : Bank) (sU sR : String)
    (body : List (String × String))
    (nd : (keysOf bank.accounts).Nodup) (hrole : sR ≠ "admin") :
    totalBal (transfer bank sU sR body).bank.accounts = totalBal bank.accounts := by
  unfold transfer
  dsimp only
  split
  · rfl
  · split
    · rfl
    · rename_i amt heq
      split
      · rfl
      · cases hs : lookupBal bank.accounts sU with
        | none => rfl
        | some b =>
          cases hr : lookupBal bank.accounts ((bodyGet body "toUser").getD "") with
          | none => rfl
          | some c =>
            dsimp only
            split
            · rfl
            · dsimp only
              have hmem_s : sU ∈ keysOf bank.accounts :=
                (lookupBal_isSome_iff _ _).1 (by rw [hs]; rfl)
              have hmem_t : (bodyGet body "toUser").getD "" ∈ keysOf bank.accounts :=
                (lookupBal_isSome_iff _ _).1 (by rw [hr]; rfl)
              have nd1 : (keysOf (addBal bank.accounts sU (-amt))).Nodup := by
                rw [keysOf_addBal]; exact nd
              have hmem_t1 :
                  (bodyGet body "toUser").getD "" ∈
                    keysOf (addBal bank.accounts sU (-amt)) := by
                rw [keysOf_addBal]; exact hmem_t
              rw [totalBal_addBal _ _ _ nd1 hmem_t1, totalBal_addBal _ _ _ nd hmem_s]
              ring

/-- A balance of any account other than the session user never decreases
across a transfer: the only debit the handler performs targets the
session username, and the credit is by a strictly positive amount. -/
theorem transfer_no_debit_of_ne (bank : Bank) (sU sR : String)
    (body : List (String × String)) (u : String) (hu : u ≠ sU) (a bb : ℚ)
    (ha : lookupBal bank.accounts u = some a)
    (hb : lookupBal (transfer bank sU sR body).bank.accounts u = some bb) :
    a ≤ bb := by
  unfold transfer at hb
  dsimp only at hb
  split at hb
  · rw [ha] at hb; exact le_of_eq (Option.some.inj hb)
  · rename_i hvalid
    split at hb
    · rw [ha] at hb; exact le_of_eq (Option.some.inj hb)
    · rename_i amt heq
      split at hb
      · rw [ha] at hb; exact le_of_eq (Option.some.inj hb)
      · rename_i hselfne
        cases hs : lookupBal bank.accounts sU with
        | none =>
          rw [hs] at hb
          dsimp only at hb
          rw [ha] at hb; exact le_of_eq (Option.some.inj hb)
        | some b =>
          rw [hs] at hb
          dsimp only at hb
          cases hr : lookupBal bank.accounts ((bodyGet body "toUser").getD "") with
          | none =>
            rw [hr] at hb
            dsimp only at hb
            rw [ha] at hb; exact le_of_eq (Option.some.inj hb)
          | some c =>
            rw [hr] at hb
            dsimp only at hb
            have hamt : (0 : ℚ) < amt := by
              rw [heq] at hvalid
              have h2 : ¬ amountInvalid (NumV.val amt) = true :=
                fun h => hvalid (Or.inr h)
              simpa [amountInvalid, not_le] using h2
            split at hb
            · rw [ha] at hb; exact le_of_eq (Option.some.inj hb)
            · split at hb
              · -- non-admin: accounts are addBal (addBal accs sU (-amt)) tgt amt
                by_cases hut : u = (bodyGet body "toUser").getD ""
                · subst hut
                  rw [lookupBal_addBal_self, lookupBal_addBal_ne _ _ _ _ hu, ha] at hb
                  have : bb = a + amt := (Option.some.inj hb).symm
                  rw [this]
                  linarith
                · rw [lookupBal_addBal_ne _ _ _ _ hut,
                    lookupBal_addBal_ne _ _ _ _ hu, ha] at hb
                  exact le_of_eq (Option.some.inj hb)
              · -- admin: accounts are addBal accs tgt amt
                by_cases hut : u = (bodyGet body "toUser").getD ""
                · subst hut
                  rw [lookupBal_addBal_self, ha] at hb
                  have : bb = a + amt := (Option.some.inj hb).symm
                  rw [this]
                  linarith
                · rw [lookupBal_addBal_ne _ _ _ _ hut, ha] at hb
                  exact le_of_eq (Option.some.inj hb)

/-- C1 counterexample: a committed transfer whose session role is admin
credits the receiver the full amount without debiting the sender, so the
sum of all balances grows from 10 to 110 across the commit; the transfer
changes exactly one balance, which the conservation claim rules out. -/
theorem admin_transfer_breaks_conservation :
    (transfer ⟨[("root", 0), ("bob", 10)], []⟩ "root" "admin"
        [("toUser", "bob"), ("amount", "100")]).resp = Resp.redirect sentUrl ∧
    totalBal (transfer ⟨[("root", 0), ("bob", 10)], []⟩ "root" "admin"
        [("toUser", "bob"), ("amount", "100")]).bank.accounts = 110 ∧
    totalBal [(("root" : String), (0 : ℚ)), ("bob", 10)] = 10 ∧
    (110 : ℚ) ≠ 10 := by
  refine ⟨by decide, ?_, by norm_num [totalBal], by norm_num⟩
  simp +decide [transfer, bodyGet, jsNumber, parseNum, stripSign, splitDot,
    digitsValAux, amountInvalid, lookupBal, addBal, totalBal]
  norm_num

/-- C1 (amended): across any sequence of transfer requests whose session
roles are all non-admin, the sum of all account balances is unchanged,
whether each request commits or fails; admin-sender transfers are
excluded because they credit without debiting. -/
theorem conservation_nonadmin_sequences (bank : Bank) (reqs : List Request)
    (nd : (keysOf bank.accounts).Nodup)
    (hroles : ∀ r ∈ reqs, r.sessRole ≠ "admin") :
    totalBal (runTransfers bank reqs).accounts = totalBal bank.accounts := by
  induction reqs generalizing bank with
  | nil => rfl
  | cons r t ih =>
    rw [runTransfers]
    rw [ih _ (by rw [transfer_keysOf]; exact nd)
          (fun x hx => hroles x (List.mem_cons_of_mem _ hx))]
    exact transfer_total_nonadmin bank r.sessUser r.sessRole r.body nd
      (hroles r (List.mem_cons_self _ _))

/-- Witness for the amended C1 at a concrete two-request history. -/
theorem conservation_nonadmin_sequences_witness :
    (keysOf [(("alice" : String), (30 : ℚ)), ("bob", 10)]).Nodup ∧
    totalBal (runTransfers ⟨[("alice", 30), ("bob", 10)], []⟩
        [⟨"alice", "user", [("toUser", "bob"), ("amount", "7")]⟩,
         ⟨"bob", "user", [("toUser", "alice"), ("amount", "50")]⟩]).accounts =
      totalBal [(("alice" : String), (30 : ℚ)), ("bob", 10)] :=
  ⟨by decide,
   conservation_nonadmin_sequences ⟨[("alice", 30), ("bob", 10)], []⟩
     [⟨"alice", "user", [("toUser", "bob"), ("amount", "7")]⟩,
      ⟨"bob", "user", [("toUser", "alice"), ("amount", "50")]⟩]
     (by decide) (by decide)⟩

/-- C2: a transfer that does not respond with the success redirect leaves
the accounts table and the transactions table exactly as they were: the
operation is all-or-nothing. -/
theorem failed_transfer_leaves_state_unchanged (bank : Bank) (sU sR : String)
    (body : List (String × String))
    (h : (transfer bank sU sR body).resp ≠ Resp.redirect sentUrl) :
    (transfer bank sU sR body).bank.accounts = bank.accounts ∧
    (transfer bank sU sR body).bank.txns = bank.txns := by
  rcases transfer_bank_or_success bank sU sR body with hb | hr
  · exact ⟨congrArg Bank.accounts hb, congrArg Bank.txns hb⟩
  · exact absurd hr h

/-- Witness for C2 at a concrete failing call: sender balance 5, standard
role, amount 10 fails and the ledger is untouched. -/
theorem failed_transfer_leaves_state_unchanged_witness :
    (transfer ⟨[("alice", 5), ("bob", 0)], []⟩ "alice" "user"
        [("toUser", "bob"), ("amount", "10")]).resp ≠ Resp.redirect sentUrl ∧
    (transfer ⟨[("alice", 5), ("bob", 0)], []⟩ "alice" "user"
        [("toUser", "bob"), ("amount", "10")]).bank.accounts =
      [("alice", 5), ("bob", 0)] :=
  ⟨by decide,
   (failed_transfer_leaves_state_unchanged ⟨[("alice", 5), ("bob", 0)], []⟩
      "alice" "user" [("toUser", "bob"), ("amount", "10")] (by decide)).1⟩

/-- C3 counterexample: the amount 2.5 is finite, positive and not an
integer, yet the handler accepts it and commits the transfer, because the
validation tests only Number.isFinite and positivity, never
integrality. -/
theorem fractional_amount_accepted :
    parseNum "2.5" = NumV.val (5 / 2) ∧
    (¬ ∃ n : ℤ, (5 : ℚ) / 2 = (n : ℚ)) ∧
    (transfer ⟨[("alice", 5), ("bob", 0)], []⟩ "alice" "user"
        [("toUser", "bob"), ("amount", "2.5")]).resp = Resp.redirect sentUrl ∧
    Resp.redirect sentUrl ≠ Resp.send invalidMsg := by
  refine ⟨?ha, ?hb, ?hc, by decide⟩
  case hb =>
    rintro ⟨n, hn⟩
    have h5 : (5 : ℚ) = 2 * (n : ℚ) := by
      field_simp at hn
      linarith
    have h5z : (5 : ℤ) = 2 * n := by exact_mod_cast h5
    omega
  · simp +decide [parseNum, stripSign, splitDot, digitsValAux]
    norm_num
  · simp +decide [transfer, bodyGet, jsNumber, parseNum, stripSign, splitDot,
      digitsValAux, amountInvalid, lookupBal]
    norm_num

/-- C3 (amended): when the converted amount is NaN (non-numeric or absent
field) or not strictly positive, the call fails with the invalid-transfer
response before any store access: the bank is untouched and no row is
locked.  Finite positive non-integer amounts, however, pass this
validation. -/
theorem invalid_amount_fails_fast (bank : Bank) (sU sR : String)
    (body : List (String × String))
    (h : amountInvalid (jsNumber (bodyGet body "amount")) = true) :
    transfer bank sU sR body = ⟨Resp.send invalidMsg, bank, []⟩ := by
  unfold transfer
  dsimp only
  rw [if_pos (Or.inr h)]

/-- Witness for the amended C3 at a concrete non-numeric amount. -/
theorem invalid_amount_fails_fast_witness :
    amountInvalid (jsNumber (bodyGet [("toUser", "bob"), ("amount", "abc")]
        "amount")) = true ∧
    transfer ⟨[("alice", 5), ("bob", 0)], []⟩ "alice" "user"
        [("toUser", "bob"), ("amount", "abc")] =
      ⟨Resp.send invalidMsg, ⟨[("alice", 5), ("bob", 0)], []⟩, []⟩ :=
  ⟨by decide,
   invalid_amount_fails_fast ⟨[("alice", 5), ("bob", 0)], []⟩ "alice" "user"
     [("toUser", "bob"), ("amount", "abc")] (by decide)⟩

/-- C4: with the admin session role the funds check is bypassed and the
sender is never debited while the receiver is credited the full amount:
the commit succeeds, the sender balance is unchanged, the receiver
balance grows by the amount, and exactly one transaction row with that
amount is appended. -/
theorem admin_bypass_credits_without_debit (bank : Bank) (sU : String)
    (body : List (String × String)) (tgt : String) (q b c : ℚ)
    (hto : bodyGet body "toUser" = some tgt)
    (htne : tgt ≠ "")
    (hamt : jsNumber (bodyGet body "amount") = NumV.val q)
    (hq : 0 < q)
    (hself : tgt ≠ sU)
    (hs : lookupBal bank.accounts sU = some b)
    (hr : lookupBal bank.accounts tgt = some c) :
    (transfer bank sU "admin" body).resp = Resp.redirect sentUrl ∧
    lookupBal (transfer bank sU "admin" body).bank.accounts sU = some b ∧
    lookupBal (transfer bank sU "admin" body).bank.accounts tgt = some (c + q) ∧
    (transfer bank sU "admin" body).bank.txns = bank.txns ++ [⟨sU, tgt, q⟩] := by
  rw [transfer_success_eq bank sU "admin" body tgt q b c hto htne hamt hq hself
    hs hr (Or.inl rfl)]
  dsimp only
  rw [if_neg (by decide)]
  refine ⟨rfl, ?_, ?_, rfl⟩
  · rw [lookupBal_addBal_ne _ _ _ _ (Ne.symm hself)]
    exact hs
  · rw [lookupBal_addBal_self, hr]
    rfl

/-- Witness for C4: an admin sender with balance 0 sends 100 to a
receiver holding 10; the commit succeeds, the sender still holds 0, the
receiver holds 110, and one transaction row for 100 is appended. -/
theorem admin_bypass_credits_without_debit_witness :
    (transfer ⟨[("root", 0), ("bob", 10)], []⟩ "root" "admin"
        [("toUser", "bob"), ("amount", "100")]).resp = Resp.redirect sentUrl ∧
    lookupBal (transfer ⟨[("root", 0), ("bob", 10)], []⟩ "root" "admin"
        [("toUser", "bob"), ("amount", "100")]).bank.accounts "root" = some 0 ∧
    lookupBal (transfer ⟨[("root", 0), ("bob", 10)], []⟩ "root" "admin"
        [("toUser", "bob"), ("amount", "100")]).bank.accounts "bob" =
      some (10 + 100) ∧
    (transfer ⟨[("root", 0), ("bob", 10)], []⟩ "root" "admin"
        [("toUser", "bob"), ("amount", "100")]).bank.txns =
      [] ++ [⟨"root", "bob", 100⟩] :=
  admin_bypass_credits_without_debit ⟨[("root", 0), ("bob", 10)], []⟩ "root"
    [("toUser", "bob"), ("amount", "100")] "bob" 100 0 10
    (by decide) (by decide) (by decide) (by decide) (by decide)
    (by decide) (by decide)

/-- C5: a non-admin sender whose balance is below the amount fails with
the insufficient-funds redirect and the bank is exactly as before. -/
theorem insufficient_funds_fails_unchanged (bank : Bank) (sU sR : String)
    (body : List (String × String)) (tgt : String) (q b c : ℚ)
    (hto : bodyGet body "toUser" = some tgt)
    (htne : tgt ≠ "")
    (hamt : jsNumber (bodyGet body "amount") = NumV.val q)
    (hq : 0 < q)
    (hself : tgt ≠ sU)
    (hs : lookupBal bank.accounts sU = some b)
    (hr : lookupBal bank.accounts tgt = some c)
    (hrole : sR ≠ "admin") (hlt : b < q) :
    (transfer bank sU sR body).resp = Resp.redirect insufficientUrl ∧
    (transfer bank sU sR body).bank = bank := by
  rw [transfer_insufficient_eq bank sU sR body tgt q b c hto htne hamt hq hself
    hs hr hrole hlt]
  exact ⟨rfl, rfl⟩

/-- Witness for C5 at the concrete scenario of the spec: balance 5,
amount 10, standard role. -/
theorem insufficient_funds_fails_unchanged_witness :
    (transfer ⟨[("alice", 5), ("bob", 0)], []⟩ "alice" "user"
        [("toUser", "bob"), ("amount", "10")]).resp =
      Resp.redirect insufficientUrl ∧
    (transfer ⟨[("alice", 5), ("bob", 0)], []⟩ "alice" "user"
        [("toUser", "bob"), ("amount", "10")]).bank =
      ⟨[("alice", 5), ("bob", 0)], []⟩ :=
  insufficient_funds_fails_unchanged ⟨[("alice", 5), ("bob", 0)], []⟩ "alice"
    "user" [("toUser", "bob"), ("amount", "10")] "bob" 10 5 0
    (by decide) (by decide) (by decide) (by decide) (by decide)
    (by decide) (by decide) (by decide) (by decide)

/-- C6 counterexample: the accepted fractional amount 2.5 leaves the
receiver with balance 5/2 after a committed transfer, so balances are not
always integers; they are rationals whenever a fractional amount is
submitted. -/
theorem fractional_balance_after_transfer :
    lookupBal (transfer ⟨[("alice", 5), ("bob", 0)], []⟩ "alice" "user"
        [("toUser", "bob"), ("amount", "2.5")]).bank.accounts "bob" =
      some (5 / 2) ∧
    (¬ ∃ n : ℤ, (5 : ℚ) / 2 = (n : ℚ)) := by
  constructor
  · simp +decide [transfer, bodyGet, jsNumber, parseNum, stripSign, splitDot,
      digitsValAux, amountInvalid, lookupBal, addBal]
    norm_num [lookupBal]
  · rintro ⟨n, hn⟩
    have h5 : (5 : ℚ) = 2 * (n : ℚ) := by
      field_simp at hn
      linarith
    have h5z : (5 : ℤ) = 2 * n := by exact_mod_cast h5
    omega

/-- C6 (amended): starting from a table with unique usernames and
non-negative balances, every transfer leaves all balances non-negative
(so no reader ever observes a negative balance), and in particular the
sender balance after the call is non-negative; balances need not remain
integers, since fractional amounts pass validation. -/
theorem balances_stay_nonneg (bank : Bank) (sU sR : String)
    (body : List (String × String))
    (nd : (keysOf bank.accounts).Nodup) (hn : allNonneg bank.accounts) :
    allNonneg (transfer bank sU sR body).bank.accounts ∧
    (∀ b, lookupBal (transfer bank sU sR body).bank.accounts sU = some b →
      0 ≤ b) := by
  have main : allNonneg (transfer bank sU sR body).bank.accounts := by
    unfold transfer
    dsimp only
    split
    · exact hn
    · rename_i hvalid
      split
      · exact hn
      · rename_i amt heq
        split
        · exact hn
        · rename_i hselfne
          cases hs : lookupBal bank.accounts sU with
          | none => exact hn
          | some b =>
            cases hr : lookupBal bank.accounts
                ((bodyGet body "toUser").getD "") with
            | none => exact hn
            | some c =>
              dsimp only
              have hamt : (0 : ℚ) < amt := by
                rw [heq] at hvalid
                have h2 : ¬ amountInvalid (NumV.val amt) = true :=
                  fun h => hvalid (Or.inr h)
                simpa [amountInvalid, not_le] using h2
              have hc : (0 : ℚ) ≤ c := hn _ (lookupBal_mem _ _ _ hr)
              split
              · exact hn
              · rename_i hfunds
                split
                · rename_i hrole
                  have hle : amt ≤ b := by
                    by_contra hlt
                    exact hfunds ⟨hrole, not_le.1 hlt⟩
                  have hn1 : allNonneg (addBal bank.accounts sU (-amt)) :=
                    allNonneg_addBal bank.accounts sU b (-amt) nd hs
                      (by linarith) hn
                  have nd1 : (keysOf (addBal bank.accounts sU (-amt))).Nodup := by
                    rw [keysOf_addBal]; exact nd
                  have hr1 : lookupBal (addBal bank.accounts sU (-amt))
                      ((bodyGet body "toUser").getD "") = some c := by
                    rw [lookupBal_addBal_ne _ _ _ _ hselfne]
                    exact hr
                  exact allNonneg_addBal _ _ c amt nd1 hr1 (by linarith) hn1
                · exact allNonneg_addBal bank.accounts _ c amt nd hr
                    (by linarith) hn
  refine ⟨main, ?_⟩
  intro b hb
  exact main _ (lookupBal_mem _ _ _ hb)

/-- Witness for the amended C6 at a concrete committed transfer. -/
theorem balances_stay_nonneg_witness :
    (keysOf [(("alice" : String), (5 : ℚ)), ("bob", 0)]).Nodup ∧
    allNonneg [(("alice" : String), (5 : ℚ)), ("bob", 0)] ∧
    allNonneg (transfer ⟨[("alice", 5), ("bob", 0)], []⟩ "alice" "user"
        [("toUser", "bob"), ("amount", "3")]).bank.accounts :=
  ⟨by decide, by unfold allNonneg; decide,
   (balances_stay_nonneg ⟨[("alice", 5), ("bob", 0)], []⟩ "alice" "user"
      [("toUser", "bob"), ("amount", "3")] (by decide)
      (by unfold allNonneg; decide)).1⟩

/-- C7 counterexample: a transfer from bob to alice locks bob first, even
though alice is lexicographically smaller, because the handler locks the
sender row first regardless of ordering. -/
theorem lock_order_is_request_order_cex :
    (transfer ⟨[("alice", 10), ("bob", 10)], []⟩ "bob" "user"
        [("toUser", "alice"), ("amount", "1")]).locks = ["bob", "alice"] ∧
    ("alice" : String) < "bob" ∧
    ("bob" : String) ≠ "alice" := by
  refine ⟨?_, by rw [String.lt_iff_toList_lt]; decide, by decide⟩
  decide

/-- C7 (amended): the handler acquires row locks in request order, always
the session user (the sender) first and the body target second, never
reordered by identifier: the lock list of any call is a prefix of
[sender, receiver]. -/
theorem locks_follow_request_order (bank : Bank) (sU sR : String)
    (body : List (String × String)) :
    (transfer bank sU sR body).locks = [] ∨
    (transfer bank sU sR body).locks = [sU] ∨
    (transfer bank sU sR body).locks = [sU, (bodyGet body "toUser").getD ""] := by
  unfold transfer
  dsimp only
  split
  · exact Or.inl rfl
  · split
    · exact Or.inl rfl
    · split
      · exact Or.inl rfl
      · split
        · exact Or.inr (Or.inl rfl)
        · split
          · exact Or.inr (Or.inr rfl)
          · split
            · exact Or.inr (Or.inr rfl)
            · exact Or.inr (Or.inr rfl)

/-- C8 counterexample: when neither account exists the handler reports
the sender, not the receiver, because the sender existence check runs
first. -/
theorem both_missing_reports_sender_not_found :
    (transfer ⟨[], []⟩ "ghost" "user"
        [("toUser", "phantom"), ("amount", "5")]).resp = Resp.send senderMsg ∧
    Resp.send senderMsg ≠ Resp.send receiverMsg := by
  refine ⟨?_, by decide⟩
  decide

/-- C8 (amended): the sender existence check precedes the receiver
existence check: an absent sender yields the sender-not-found response
regardless of the receiver, and the receiver-missing response occurs only
when the sender row exists and the receiver row does not. -/
theorem sender_check_precedes_receiver (bank : Bank) (sU sR : String)
    (body : List (String × String)) (tgt : String) (q : ℚ)
    (hto : bodyGet body "toUser" = some tgt)
    (htne : tgt ≠ "")
    (hamt : jsNumber (bodyGet body "amount") = NumV.val q)
    (hq : 0 < q)
    (hself : tgt ≠ sU) :
    (lookupBal bank.accounts sU = none →
      (transfer bank sU sR body).resp = Resp.send senderMsg) ∧
    (∀ b, lookupBal bank.accounts sU = some b →
      lookupBal bank.accounts tgt = none →
      (transfer bank sU sR body).resp = Resp.send receiverMsg) := by
  constructor
  · intro hs
    rw [transfer_sender_missing_eq bank sU sR body tgt q hto htne hamt hq
      hself hs]
  · intro b hs hr
    rw [transfer_receiver_missing_eq bank sU sR body tgt q b hto htne hamt hq
      hself hs hr]

/-- Witness for the amended C8: a bank where only the sender row exists
yields the receiver-missing response. -/
theorem sender_check_precedes_receiver_witness :
    lookupBal [(("ghost" : String), (5 : ℚ))] "ghost" = some 5 ∧
    lookupBal [(("ghost" : String), (5 : ℚ))] "phantom" = none ∧
    (transfer ⟨[("ghost", 5)], []⟩ "ghost" "user"
        [("toUser", "phantom"), ("amount", "5")]).resp = Resp.send receiverMsg :=
  ⟨by decide, by decide,
   (sender_check_precedes_receiver ⟨[("ghost", 5)], []⟩ "ghost" "user"
      [("toUser", "phantom"), ("amount", "5")] "phantom" 5
      (by decide) (by decide) (by decide) (by decide) (by decide)).2
     5 (by decide) (by decide)⟩

/-- C9 counterexample: two committed transfers that end with different
sender balances (7 versus 50) produce the same success response, a bare
redirect; the response therefore carries neither the new balances nor the
identifier of the created record. -/
theorem success_response_carries_no_balances :
    (transfer ⟨[("alice", 10), ("bob", 0)], []⟩ "alice" "user"
        [("toUser", "bob"), ("amount", "3")]).resp =
      (transfer ⟨[("carol", 100), ("dave", 5)], []⟩ "carol" "user"
        [("toUser", "dave"), ("amount", "50")]).resp ∧
    (transfer ⟨[("alice", 10), ("bob", 0)], []⟩ "alice" "user"
        [("toUser", "bob"), ("amount", "3")]).resp = Resp.redirect sentUrl ∧
    lookupBal (transfer ⟨[("alice", 10), ("bob", 0)], []⟩ "alice" "user"
        [("toUser", "bob"), ("amount", "3")]).bank.accounts "alice" = some 7 ∧
    lookupBal (transfer ⟨[("carol", 100), ("dave", 5)], []⟩ "carol" "user"
        [("toUser", "dave"), ("amount", "50")]).bank.accounts "carol" =
      some 50 ∧
    (7 : ℚ) ≠ 50 := by
  refine ⟨by decide, by decide, ?_, ?_, by norm_num⟩
  · simp +decide [transfer, bodyGet, jsNumber, parseNum, stripSign, splitDot,
      digitsValAux, amountInvalid, lookupBal, addBal]
    norm_num
  · simp +decide [transfer, bodyGet, jsNumber, parseNum, stripSign, splitDot,
      digitsValAux, amountInvalid, lookupBal, addBal]
    norm_num

/-- C9 (amended): every transfer that changes the ledger responds with
the same fixed redirect to the dashboard sent page; the new balances and
the created record identifier are not part of the transfer response. -/
theorem committed_transfer_returns_fixed_redirect (bank : Bank)
    (sU sR : String) (body : List (String × String))
    (h : (transfer bank sU sR body).bank ≠ bank) :
    (transfer bank sU sR body).resp = Resp.redirect sentUrl :=
  (transfer_bank_or_success bank sU sR body).resolve_left h

/-- Witness for the amended C9 at a concrete committed transfer. -/
theorem committed_transfer_returns_fixed_redirect_witness :
    (transfer ⟨[("alice", 10), ("bob", 0)], []⟩ "alice" "user"
        [("toUser", "bob"), ("amount", "3")]).bank ≠
      ⟨[("alice", 10), ("bob", 0)], []⟩ ∧
    (transfer ⟨[("alice", 10), ("bob", 0)], []⟩ "alice" "user"
        [("toUser", "bob"), ("amount", "3")]).resp = Resp.redirect sentUrl :=
  ⟨by simp +decide [transfer, bodyGet, jsNumber, parseNum, stripSign, splitDot,
      digitsValAux, amountInvalid, lookupBal, addBal],
   committed_transfer_returns_fixed_redirect ⟨[("alice", 10), ("bob", 0)], []⟩
     "alice" "user" [("toUser", "bob"), ("amount", "3")]
     (by simp +decide [transfer, bodyGet, jsNumber, parseNum, stripSign,
        splitDot, digitsValAux, amountInvalid, lookupBal, addBal])⟩

/-- C10: the debited identity and the role used for the admin check come
only from the session: two requests with the same session username and
role whose bodies agree on the toUser and amount fields produce identical
outcomes whatever other fields the bodies carry, and no request can make
the balance of an account other than the session user decrease. -/
theorem transfer_uses_only_session_and_named_fields (bank : Bank)
    (sU sR : String) (b1 b2 : List (String × String))
    (h1 : bodyGet b1 "toUser" = bodyGet b2 "toUser")
    (h2 : bodyGet b1 "amount" = bodyGet b2 "amount") :
    transfer bank sU sR b1 = transfer bank sU sR b2 ∧
    (∀ u, u ≠ sU → ∀ a bb, lookupBal bank.accounts u = some a →
      lookupBal (transfer bank sU sR b1).bank.accounts u = some bb →
      a ≤ bb) := by
  constructor
  · unfold transfer
    rw [h1, h2]
  · intro u hu a bb ha hb
    exact transfer_no_debit_of_ne bank sU sR b1 u hu a bb ha hb

/-- Witness for C10: adding an unrelated body field and permuting fields
leaves the outcome unchanged. -/
theorem transfer_uses_only_session_and_named_fields_witness :
    bodyGet [("toUser", "bob"), ("amount", "3"), ("fromUser", "mallory")]
        "toUser" = bodyGet [("amount", "3"), ("toUser", "bob")] "toUser" ∧
    bodyGet [("toUser", "bob"), ("amount", "3"), ("fromUser", "mallory")]
        "amount" = bodyGet [("amount", "3"), ("toUser", "bob")] "amount" ∧
    transfer ⟨[("alice", 10), ("bob", 0)], []⟩ "alice" "user"
        [("toUser", "bob"), ("amount", "3"), ("fromUser", "mallory")] =
      transfer ⟨[("alice", 10), ("bob", 0)], []⟩ "alice" "user"
        [("amount", "3"), ("toUser", "bob")] :=
  ⟨by decide, by decide,
   (transfer_uses_only_session_and_named_fields
      ⟨[("alice", 10), ("bob", 0)], []⟩ "alice" "user"
      [("toUser", "bob"), ("amount", "3"), ("fromUser", "mallory")]
      [("amount", "3"), ("toUser", "bob")] (by decide) (by decide)).1⟩

end DorksBank
